import Mathlib

/-!
Shallow embedding of the tickgrinder simulated-broker core:
`src/util/src/trading/objects.rs` (trading objects and the `Ledger`) and
`src/backtester/src/sim_broker/mod.rs` (the `SimBroker` simulation loop).

Conventions of the embedding:
* Rust `usize` / `u64` values are `Nat`; `isize` is `Int`.
* `Uuid` values are identified by `Nat` tags; `Uuid::new_v4()` is threaded in
  as an explicit fresh-id parameter.
* `HashMap<Uuid, Position>` is an association list with unique keys
  (`insert` replaces, `remove` deletes the key).
* `Result<BrokerMessage, BrokerError>` is `Except BrokerError BrokerMessage`.
* Code that can panic (`unwrap`, `expect`, `assert!`, `unimplemented!`,
  division by zero) is wrapped in `Except String`; a `.error` value is a
  panic, which is distinct from an `Err` value returned to the caller.
-/

namespace TickGrinder

/-- Tick from tickgrinder_util::trading::tick: a timestamped bid/ask quote. -/
structure Tick where
  timestamp : Nat
  bid : Nat
  ask : Nat
deriving DecidableEq, Repr

/-- PositionClosureReason from objects.rs. -/
inductive PositionClosureReason where
  | StopLoss
  | TakeProfit
  | MarginCall
  | Expired
  | FillOrKill
  | MarketClose
deriving DecidableEq, Repr

/-- BrokerError from objects.rs. -/
inductive BrokerError where
  | Message (message : String)
  | Unimplemented (message : String)
  | InsufficientBuyingPower
  | NoSuchPosition
  | NoSuchAccount
  | NoSuchSymbol
  | InvalidModificationAmount
  | NoDataAvailable
deriving DecidableEq, Repr

/-- Position from objects.rs: an opened, closed, or pending position. -/
structure Position where
  creation_time : Nat
  symbol_id : Nat
  size : Nat
  price : Option Nat
  long : Bool
  stop : Option Nat
  take_profit : Option Nat
  execution_time : Option Nat
  execution_price : Option Nat
  exit_price : Option Nat
  exit_time : Option Nat
deriving DecidableEq, Repr

/-- BrokerMessage from objects.rs. -/
inductive BrokerMessage where
  | Success
  | Failure
  | Notice
  | PositionOpened (position_id : Nat) (position : Position) (timestamp : Nat)
  | PositionClosed (position_id : Nat) (position : Position)
      (reason : PositionClosureReason) (timestamp : Nat)
  | PositionModified (position_id : Nat) (position : Position) (timestamp : Nat)
  | Pong (time_received : Nat)
deriving DecidableEq, Repr

/-- BrokerResult = Result of BrokerMessage or BrokerError. -/
abbrev BrokerResult := Except BrokerError BrokerMessage

/-- Association-list model of HashMap from Uuid to Position. -/
abbrev PosMap := List (Nat × Position)

/-- HashMap::get, as an Option-returning lookup. -/
def PosMap.lookup (m : PosMap) (k : Nat) : Option Position :=
  (m.find? (fun p => p.1 == k)).map Prod.snd

/-- HashMap::remove: deletes the key from the map. -/
def PosMap.remove (m : PosMap) (k : Nat) : PosMap :=
  m.filter (fun p => p.1 != k)

/-- HashMap::insert: replaces any existing binding of the key. -/
def PosMap.insert (m : PosMap) (k : Nat) (v : Position) : PosMap :=
  (k, v) :: m.remove k

/-- Ledger from objects.rs: balance plus the three position maps. -/
structure Ledger where
  balance : Nat
  pending_positions : PosMap
  open_positions : PosMap
  closed_positions : PosMap
deriving DecidableEq, Repr

namespace Ledger

/-- Ledger::new. -/
def new (starting_balance : Nat) : Ledger :=
  { balance := starting_balance
    pending_positions := []
    open_positions := []
    closed_positions := [] }

/-- Ledger::place_order: debits the margin requirement and then hits
an unimplemented-TODO panic in the source; only the insufficient-funds
branch returns normally. -/
def place_order (l : Ledger) (_pos : Position) (margin_requirement : Nat) :
    Except String (BrokerResult × Ledger) :=
  if margin_requirement > l.balance then
    .ok (.error .InsufficientBuyingPower, l)
  else
    .error "not implemented"

/-- Ledger::open_position: unwraps the execution time (a panic when it is
None), errors when the execution price is missing, otherwise inserts the
position into the open map. -/
def open_position (l : Ledger) (uuid : Nat) (pos : Position) :
    Except String (BrokerResult × Ledger) :=
  match pos.execution_time with
  | none => .error "called Option::unwrap on a None value"
  | some execution_time =>
    if pos.execution_price = none then
      .ok (.error (.Message "The supplied position does not have an entry price."), l)
    else
      .ok (.ok (.PositionOpened uuid pos execution_time),
           { l with open_positions := l.open_positions.insert uuid pos })

/-- Ledger::close_position: removes the position from the open map and
credits the balance.  The source never inserts the removed position into
closed_positions. -/
def close_position (l : Ledger) (uuid : Nat) (position_value : Nat)
    (timestamp : Nat) (reason : PositionClosureReason) : BrokerResult × Ledger :=
  match l.open_positions.lookup uuid with
  | none => (.error .NoSuchPosition, l)
  | some pos =>
    (.ok (.PositionClosed uuid pos reason timestamp),
     { l with
        open_positions := l.open_positions.remove uuid
        balance := l.balance + position_value })

/-- Ledger::resize_position: removes the position up front (an expect-panic
when absent), then validates; the error returns do not restore the removed
position.  The zero-size branch delegates to close_position on the state
from which the position was already removed. -/
def resize_position (l : Ledger) (uuid : Nat) (units : Int)
    (modification_cost : Nat) (timestamp : Nat) :
    Except String (BrokerResult × Ledger) :=
  match l.open_positions.lookup uuid with
  | none => .error "No position found with that UUID; should have caught this earlier."
  | some pos =>
    let l2 : Ledger := { l with open_positions := l.open_positions.remove uuid }
    let unit_diff : Int := units + (pos.size : Int)
    if unit_diff < 0 then
      .ok (.error .InvalidModificationAmount, l2)
    else if unit_diff = 0 then
      .ok (l2.close_position uuid modification_cost timestamp .MarketClose)
    else if l2.balance < modification_cost then
      .ok (.error .InsufficientBuyingPower, l2)
    else
      let pos2 : Position := { pos with size := ((pos.size : Int) + units).toNat }
      .ok (.ok (.PositionModified uuid pos2 timestamp),
           { l2 with
              balance := l2.balance - modification_cost
              open_positions := l2.open_positions.insert uuid pos2 })

/-- Ledger::modify_position: overwrites stop and take_profit on an open
position. -/
def modify_position (l : Ledger) (pos_uuid : Nat) (sl tp : Option Nat)
    (timestamp : Nat) : BrokerResult × Ledger :=
  match l.open_positions.lookup pos_uuid with
  | some pos =>
    let pos2 : Position := { pos with stop := sl, take_profit := tp }
    (.ok (.PositionModified pos_uuid pos2 timestamp),
     { l with open_positions := l.open_positions.insert pos_uuid pos2 })
  | none => (.error .NoSuchPosition, l)

end Ledger

/-- Boolean form of the Rust pattern o.is_some() && o.unwrap() >= y. -/
def optGe (o : Option Nat) (y : Nat) : Bool :=
  match o with
  | some x => y ≤ x
  | none => false

/-- Boolean form of the Rust pattern o.is_some() && o.unwrap() <= y. -/
def optLe (o : Option Nat) (y : Nat) : Bool :=
  match o with
  | some x => x ≤ y
  | none => false

namespace Position

/-- Position::is_open_satisfied: asserts the position is pending with an
intended price, then fills a long at the ask when ask <= price, and
otherwise fills at the bid when bid >= price (the second branch carries no
long/short guard in the source). -/
def is_open_satisfied (p : Position) (bid ask : Nat) :
    Except String (Option Nat) :=
  match p.execution_price, p.price with
  | some _, _ => .error "assertion failed: execution_price == None"
  | none, none => .error "assertion failed: price.is_some()"
  | none, some price =>
    .ok (if p.long ∧ ask ≤ price then some ask
         else if bid ≥ price then some bid
         else none)

/-- Position::is_close_satisfied: asserts the position is open and not yet
closed, then checks stop before take-profit for each side, returning the
closure price and reason exactly as written in the source. -/
def is_close_satisfied (p : Position) (bid ask : Nat) :
    Except String (Option (Nat × PositionClosureReason)) :=
  match p.execution_price, p.exit_price with
  | none, _ => .error "assertion failed: execution_price.is_some()"
  | some _, some _ => .error "assertion failed: exit_price == None"
  | some _, none =>
    .ok (if p.long then
          if optGe p.stop bid then some (bid, .StopLoss)
          else if optLe p.take_profit ask then some (ask, .StopLoss)
          else none
         else
          if optLe p.stop ask then some (ask, .TakeProfit)
          else if optGe p.take_profit bid then some (bid, .TakeProfit)
          else none)

end Position

/-- TradingAction from trading_condition.rs (fields as destructured by
sim_broker/mod.rs; the defining file is not under src).  The unused
max_range (an f64 in the source) is represented as an optional Nat. -/
inductive TradingAction where
  | MarketOrder (symbol : String) (long : Bool) (size : Nat)
      (stop : Option Nat) (take_profit : Option Nat) (max_range : Option Nat)
  | MarketClose (uuid : Nat) (size : Nat)
  | LimitOrder (account : Nat) (symbol : String) (long : Bool) (size : Nat)
      (stop : Option Nat) (take_profit : Option Nat) (entry_price : Nat)
  | LimitClose (uuid : Nat) (size : Nat) (exit_price : Nat)
  | ModifyPosition (uuid : Nat) (stop : Option Nat) (take_profit : Option Nat)
      (entry_price : Option Nat)
deriving DecidableEq, Repr

/-- BrokerAction from objects.rs. -/
inductive BrokerAction where
  | TradingAction (account_uuid : Nat) (action : TickGrinder.TradingAction)
  | Ping
  | Disconnect
deriving DecidableEq, Repr

/-- SimBrokerSettings (helpers module, not under src).  Modelled from the
spec: starting balance, network ping, execution delay, FX configuration,
and a per-action-kind processing-delay function. -/
structure SimBrokerSettings where
  starting_balance : Nat
  ping_ns : Nat
  execution_delay_ns : Nat
  fx : Bool
  fx_base_currency : String
  fx_lot_size : Nat
  delay_of : BrokerAction → Nat

/-- SimBrokerSettings::get_delay.  Modelled from the spec: a pure function
from action kind to broker-processing delay, supplied by the settings. -/
def SimBrokerSettings.get_delay (s : SimBrokerSettings) (a : BrokerAction) : Nat :=
  s.delay_of a

/-- Symbol (helpers module, not under src).  Modelled from the spec: lazy
finite tick source, primed next_tick, current (bid, ask) price, FX flag and
decimal precision.  The capacity-1 client sink is represented by the
client-tick log on the broker state. -/
structure Symbol where
  tick_source : List Tick
  next_tick : Option Tick
  price : Nat × Nat
  is_fx : Bool
  decimal_precision : Nat
deriving DecidableEq, Repr

namespace Symbol

/-- Symbol::new_from_stream.  Modelled from the spec: wraps a raw
tickstream; the price is unset (zero) until the first tick is processed. -/
def new_from_stream (src : List Tick) (is_fx : Bool) (decimal_precision : Nat) :
    Symbol :=
  { tick_source := src
    next_tick := none
    price := (0, 0)
    is_fx := is_fx
    decimal_precision := decimal_precision }

/-- Symbol::new_oneshot.  Modelled from the spec: a static price with no
tick source. -/
def new_oneshot (price : Nat × Nat) (is_fx : Bool) (decimal_precision : Nat) :
    Symbol :=
  { tick_source := []
    next_tick := none
    price := price
    is_fx := is_fx
    decimal_precision := decimal_precision }

/-- Symbol::next.  Modelled from the spec: primes next_tick from the head
of the tick source and returns it, or None when the source is exhausted. -/
def next (s : Symbol) : Option Tick × Symbol :=
  match s.tick_source with
  | [] => (none, { s with next_tick := none })
  | t :: rest => (some t, { s with tick_source := rest, next_tick := some t })

/-- Symbol::get_price: current bid, ask and decimal precision. -/
def get_price (s : Symbol) : Nat × Nat × Nat :=
  (s.price.1, s.price.2, s.decimal_precision)

end Symbol

/-- Symbols (helpers module, not under src).  Modelled from the spec: a
dense vector of symbols with a name-to-index correspondence; the dense
index of a symbol is its list position. -/
structure Symbols where
  data : List (String × Symbol)
deriving DecidableEq, Repr

namespace Symbols

/-- Symbols::contains. -/
def contains (ss : Symbols) (name : String) : Bool :=
  ss.data.any (fun p => p.1 == name)

/-- Name-keyed symbol lookup (Index by name in the source). -/
def get? (ss : Symbols) (name : String) : Option Symbol :=
  (ss.data.find? (fun p => p.1 == name)).map Prod.snd

/-- Price lookup by name: Some iff the symbol table contains the name. -/
def get_price? (ss : Symbols) (name : String) : Option (Nat × Nat × Nat) :=
  (ss.get? name).map Symbol.get_price

/-- Dense index of a registered symbol name. -/
def index_of (ss : Symbols) (name : String) : Option Nat :=
  ss.data.findIdx? (fun p => p.1 == name)

/-- Symbols::add.  Modelled from the spec: appends under a fresh dense
index, or fails when the name already exists. -/
def add (ss : Symbols) (name : String) (sym : Symbol) : BrokerResult × Symbols :=
  if ss.contains name then
    (.error (.Message "A tickstream already exists for that symbol!"), ss)
  else
    (.ok .Success, ⟨ss.data ++ [(name, sym)]⟩)

end Symbols

/-- Account from objects.rs. -/
structure Account where
  uuid : Nat
  ledger : Ledger
  live : Bool
deriving DecidableEq, Repr

/-- Accounts (helpers module, not under src).  Modelled from the spec: a
map from account id to Account, plus a count of the uniform per-symbol
slots reserved by add_symbol. -/
structure Accounts where
  data : List (Nat × Account)
  symbol_slots : Nat

namespace Accounts

/-- Accounts lookup by id. -/
def get? (a : Accounts) (k : Nat) : Option Account :=
  (a.data.find? (fun p => p.1 == k)).map Prod.snd

/-- In-place update of the account stored under an existing id
(the Entry::Occupied mutation in the source). -/
def set (a : Accounts) (k : Nat) (v : Account) : Accounts :=
  { a with data := a.data.map (fun p => if p.1 == k then (k, v) else p) }

/-- Accounts::add_symbol.  Modelled from the spec: reserves a per-symbol
slot for every account. -/
def add_symbol (a : Accounts) : Accounts :=
  { a with symbol_slots := a.symbol_slots + 1 }

end Accounts

/-- WorkUnit from the simulation queue. -/
inductive WorkUnit where
  | NewTick (symbol_ix : Nat) (tick : Tick)
  | ClientTick (symbol_ix : Nat) (tick : Tick)
  | ActionComplete (slot : Nat) (action : BrokerAction)
  | Response (slot : Nat) (res : BrokerResult)

/-- QueueItem: a timestamped work unit. -/
structure QueueItem where
  timestamp : Nat
  unit : WorkUnit

/-- SimulationQueue::push (helpers module, not under src).  Modelled from
the spec: stable insertion into a timeline ordered by ascending timestamp,
FIFO within a timestamp tie. -/
def pqPush (q : List QueueItem) (qi : QueueItem) : List QueueItem :=
  match q with
  | [] => [qi]
  | x :: xs =>
    if x.timestamp ≤ qi.timestamp then x :: pqPush xs qi
    else qi :: x :: xs

/-- SimulationQueue::pop (helpers module, not under src).  Modelled from
the spec: removes the earliest item of the timeline. -/
def pqPop (q : List QueueItem) : Option (QueueItem × List QueueItem) :=
  match q with
  | [] => none
  | x :: xs => some (x, xs)

/-- SimBroker state.  The reply-slot channel, push channel and client tick
sinks are represented as inbox and output logs; next_uuid threads the
fresh ids drawn from Uuid::new_v4. -/
structure SimBroker where
  accounts : Accounts
  settings : SimBrokerSettings
  symbols : Symbols
  pq : List QueueItem
  timestamp : Nat
  inbox : List (BrokerAction × Nat)
  pushes : List BrokerResult
  responses : List (Nat × BrokerResult)
  client_ticks : List (Nat × Tick)
  next_uuid : Nat

namespace SimBroker

/-- SimBroker::get_price: the current price for a registered symbol. -/
def get_price (b : SimBroker) (name : String) : Option (Nat × Nat) :=
  (b.symbols.get? name).map Symbol.price

/-- convert_decimals from tickgrinder_util (not under src).  Modelled from
the spec: renormalizes an integer price from src_decimals to dst_decimals
of fixed-point precision. -/
def convert_decimals (price src_decimals dst_decimals : Nat) : Nat :=
  if src_decimals ≤ dst_decimals then price * 10 ^ (dst_decimals - src_decimals)
  else price / 10 ^ (src_decimals - dst_decimals)

/-- SimBroker::get_base_rate: in FX mode, the ask of symbol ++ base
currency, else of base currency ++ symbol, normalized to 10 decimals;
NoDataAvailable when neither pair is registered, and an error outside FX
mode. -/
def get_base_rate (b : SimBroker) (symbol : String) : Except BrokerError Nat :=
  if b.settings.fx = false then
    .error (.Message "Can only convert to base rate when in FX mode.")
  else
    let base_pair := symbol ++ b.settings.fx_base_currency
    let base_pair_reverse := b.settings.fx_base_currency ++ symbol
    match b.symbols.get_price? base_pair with
    | some (_, ask, decimals) => .ok (convert_decimals ask decimals 10)
    | none =>
      match b.symbols.get_price? base_pair_reverse with
      | some (_, ask, decimals) => .ok (convert_decimals ask decimals 10)
      | none => .error .NoDataAvailable

/-- SimBroker::get_position_value: size times base rate times lot size for
an FX symbol, the raw size otherwise.  The source addresses the position
symbol by name while the Position struct of objects.rs stores the dense
symbol_id; the embedding resolves the name through the dense-index
correspondence of the symbol table. -/
def get_position_value (b : SimBroker) (pos : Position) :
    Except BrokerError Nat :=
  match b.symbols.data.get? pos.symbol_id with
  | none => .error .NoSuchSymbol
  | some (name, sym) =>
    if sym.is_fx then do
      let base_rate ← b.get_base_rate name
      return pos.size * base_rate * b.settings.fx_lot_size
    else
      .ok pos.size

/-- SimBroker::market_open: builds a position at the current price with
execution_time = now + execution_delay_ns, computes the open cost, and
hands the position to Ledger::open_position on the named account.  The
source call passes (pos, open_cost) while Ledger::open_position of
objects.rs takes (uuid, pos) and has no cost parameter; the embedding
therefore calls open_position with a fresh uuid and the computed open cost
is discarded. -/
def market_open (b : SimBroker) (account_id : Nat) (symbol : String)
    (long : Bool) (size : Nat) (stop : Option Nat) (take_profit : Option Nat)
    (_max_range : Option Nat) (timestamp : Nat) (new_uuid : Nat) :
    Except String (BrokerResult × SimBroker) :=
  match b.get_price symbol with
  | none => .ok (.error .NoSuchSymbol, b)
  | some (bid, ask) =>
    let cur_price := if long then ask else bid
    let pos : Position :=
      { creation_time := timestamp
        symbol_id := (b.symbols.index_of symbol).getD 0
        size := size
        price := some cur_price
        long := long
        stop := stop
        take_profit := take_profit
        execution_time := some (timestamp + b.settings.execution_delay_ns)
        execution_price := some cur_price
        exit_price := none
        exit_time := none }
    match b.get_position_value pos with
    | .error e => .ok (.error e, b)
    | .ok _open_cost =>
      match b.accounts.get? account_id with
      | none => .ok (.error .NoSuchAccount, b)
      | some account =>
        match account.ledger.open_position new_uuid pos with
        | .error s => .error s
        | .ok (res, ledger2) =>
          .ok (res, { b with
            accounts := b.accounts.set account_id { account with ledger := ledger2 } })

/-- SimBroker::market_close: computes the per-unit value of the open
position and resizes it by the negated size (a zero-size request is only
logged).  Division by a zero position size panics in the source. -/
def market_close (b : SimBroker) (account_id : Nat) (position_uuid : Nat)
    (size : Nat) : Except String (BrokerResult × SimBroker) :=
  match b.accounts.get? account_id with
  | none => .ok (.error .NoSuchAccount, b)
  | some account =>
    match account.ledger.open_positions.lookup position_uuid with
    | none => .ok (.error .NoSuchPosition, b)
    | some pos =>
      match b.get_position_value pos with
      | .error e => .ok (.error e, b)
      | .ok pos_value =>
        if pos.size = 0 then .error "attempt to divide by zero"
        else
          let modification_cost := (pos_value / pos.size) * size
          match account.ledger.resize_position position_uuid (-(size : Int))
              modification_cost b.timestamp with
          | .error s => .error s
          | .ok (res, ledger2) =>
            .ok (res, { b with
              accounts := b.accounts.set account_id { account with ledger := ledger2 } })

/-- SimBroker::modify_position: forwards to Ledger::modify_position on the
named account. -/
def modify_position (b : SimBroker) (account_id : Nat) (position_uuid : Nat)
    (sl tp : Option Nat) : BrokerResult × SimBroker :=
  match b.accounts.get? account_id with
  | none => (.error .NoSuchAccount, b)
  | some account =>
    let rl := account.ledger.modify_position position_uuid sl tp b.timestamp
    (rl.1, { b with
      accounts := b.accounts.set account_id { account with ledger := rl.2 } })

/-- SimBroker::exec_action: interprets a client action at the broker-
processed timestamp.  Limit orders, limit closes and Disconnect hit
unimplemented-TODO panics in the source. -/
def exec_action (b : SimBroker) (cmd : BrokerAction) (timestamp : Nat)
    (new_uuid : Nat) : Except String (BrokerResult × SimBroker) :=
  match cmd with
  | .Ping => .ok (.ok (.Pong timestamp), b)
  | .TradingAction account_uuid action =>
    match action with
    | .MarketOrder symbol long size stop take_profit max_range =>
      b.market_open account_uuid symbol long size stop take_profit max_range
        timestamp new_uuid
    | .MarketClose uuid size => b.market_close account_uuid uuid size
    | .LimitOrder _ _ _ _ _ _ _ => .error "not implemented"
    | .LimitClose _ _ _ => .error "not implemented"
    | .ModifyPosition uuid stop take_profit _entry_price =>
      .ok (b.modify_position account_uuid uuid stop take_profit)
  | .Disconnect => .error "not implemented"

/-- SimBroker::register_tickstream: reserves the per-symbol account slot,
wraps the raw stream, unwraps the first tick of the stream (a panic when the
stream is empty), primes next_tick with it, and adds the symbol. -/
def register_tickstream (b : SimBroker) (name : String)
    (raw_tickstream : List Tick) (is_fx : Bool) (decimal_precision : Nat) :
    Except String (BrokerResult × SimBroker) :=
  let accounts := b.accounts.add_symbol
  let sym := Symbol.new_from_stream raw_tickstream is_fx decimal_precision
  let (first?, sym2) := sym.next
  match first? with
  | none => .error "called Option::unwrap on a None value"
  | some first_tick =>
    let sym3 := { sym2 with next_tick := some first_tick }
    let (res, symbols2) := b.symbols.add name sym3
    .ok (res, { b with accounts := accounts, symbols := symbols2 })

end SimBroker

/-- Collection phase of SimBroker::tick_positions over the pending map
of one account: is_open_satisfied is evaluated on every pending
position (its assertions can panic) and the ids whose symbol matches the
ticked symbol and whose conditions are met are collected, paired with the
fill price option, in iteration order.  The source compares pos.symbol_id
with the ticked index. -/
def collect_satisfied_pendings (bid ask symbol_ix : Nat) :
    List (Nat × Position) → Except String (List (Nat × Option Nat))
  | [] => .ok []
  | (pos_id, pos) :: rest =>
    match pos.is_open_satisfied bid ask with
    | .error e => .error e
    | .ok satisfied =>
      match collect_satisfied_pendings bid ask symbol_ix rest with
      | .error e => .error e
      | .ok tail =>
        if pos.symbol_id = symbol_ix ∧ satisfied.isSome then
          .ok ((pos_id, satisfied) :: tail)
        else
          .ok tail

/-- Fill phase of SimBroker::tick_positions: each satisfied pending
position is removed from the pending map (an unwrap-panic when absent),
stamped with execution_time = now and the fill price, inserted into the
open map, and a PositionOpened push message carrying the current broker
timestamp is emitted. -/
def apply_fills (timestamp : Nat) (acct : Account) :
    List (Nat × Option Nat) → Except String (Account × List BrokerResult)
  | [] => .ok (acct, [])
  | (pos_id, price_opt) :: rest =>
    match acct.ledger.pending_positions.lookup pos_id with
    | none => .error "called Option::unwrap on a None value"
    | some pos =>
      let pos2 : Position :=
        { pos with execution_time := some timestamp, execution_price := price_opt }
      let ledger2 : Ledger :=
        { acct.ledger with
            pending_positions := acct.ledger.pending_positions.remove pos_id
            open_positions := acct.ledger.open_positions.insert pos_id pos2 }
      match apply_fills timestamp { acct with ledger := ledger2 } rest with
      | .error e => .error e
      | .ok (acct2, msgs) =>
        .ok (acct2, Except.ok (BrokerMessage.PositionOpened pos_id pos2 timestamp) :: msgs)

/-- Collection phase of SimBroker::tick_positions over the open positions of one account over
positions: is_close_satisfied is evaluated on every open position (its
assertions can panic) and the matching satisfied ids are collected with
their closure price and reason.  The source compares the symbol of the position
with the ticked one; the embedding resolves that by dense index. -/
def collect_satisfied_opens (bid ask symbol_ix : Nat) :
    List (Nat × Position) →
    Except String (List (Nat × Option (Nat × PositionClosureReason)))
  | [] => .ok []
  | (pos_id, pos) :: rest =>
    match pos.is_close_satisfied bid ask with
    | .error e => .error e
    | .ok satisfied =>
      match collect_satisfied_opens bid ask symbol_ix rest with
      | .error e => .error e
      | .ok tail =>
        if pos.symbol_id = symbol_ix ∧ satisfied.isSome then
          .ok ((pos_id, satisfied) :: tail)
        else
          .ok tail

/-- Close phase of SimBroker::tick_positions: for each satisfied open
position the source removes the id from the PENDING map (an unwrap-panic
when the id is not pending, which is the normal case for an open
position), stamps exit_time and exit_price, inserts into the closed map,
and emits a PositionClosed push message carrying the current broker
timestamp. -/
def apply_closes (timestamp : Nat) (acct : Account) :
    List (Nat × Option (Nat × PositionClosureReason)) →
    Except String (Account × List BrokerResult)
  | [] => .ok (acct, [])
  | (pos_id, closure) :: rest =>
    match closure with
    | none => .error "called Option::unwrap on a None value"
    | some (close_price, closure_reason) =>
      match acct.ledger.pending_positions.lookup pos_id with
      | none => .error "called Option::unwrap on a None value"
      | some pos =>
        let pos2 : Position :=
          { pos with exit_time := some timestamp, exit_price := some close_price }
        let ledger2 : Ledger :=
          { acct.ledger with
              pending_positions := acct.ledger.pending_positions.remove pos_id
              closed_positions := acct.ledger.closed_positions.insert pos_id pos2 }
        match apply_closes timestamp { acct with ledger := ledger2 } rest with
        | .error e => .error e
        | .ok (acct2, msgs) =>
          .ok (acct2,
            Except.ok (BrokerMessage.PositionClosed pos_id pos2 closure_reason timestamp) :: msgs)

/-- Per-account body of SimBroker::tick_positions, iterated over the
account list: fills of satisfied pendings, then closes of satisfied opens
(the open set inspected after the fills have been inserted). -/
def tick_accounts (timestamp bid ask symbol_ix : Nat) :
    List (Nat × Account) →
    Except String (List (Nat × Account) × List BrokerResult)
  | [] => .ok ([], [])
  | (acct_id, acct) :: rest =>
    match collect_satisfied_pendings bid ask symbol_ix acct.ledger.pending_positions with
    | .error e => .error e
    | .ok sp =>
      match apply_fills timestamp acct sp with
      | .error e => .error e
      | .ok (acct2, msgs1) =>
        match collect_satisfied_opens bid ask symbol_ix acct2.ledger.open_positions with
        | .error e => .error e
        | .ok so =>
          match apply_closes timestamp acct2 so with
          | .error e => .error e
          | .ok (acct3, msgs2) =>
            match tick_accounts timestamp bid ask symbol_ix rest with
            | .error e => .error e
            | .ok (rest2, msgs3) =>
              .ok ((acct_id, acct3) :: rest2, msgs1 ++ msgs2 ++ msgs3)

namespace SimBroker

/-- SimBroker::tick_positions: evaluates pending and open positions of
every account against the price of the just-ticked symbol and appends the
resulting push messages to the push log. -/
def tick_positions (b : SimBroker) (symbol_ix : Nat) :
    Except String SimBroker :=
  match b.symbols.data.get? symbol_ix with
  | none => .error "index out of bounds"
  | some (_, sym) =>
    match tick_accounts b.timestamp sym.price.1 sym.price.2 symbol_ix b.accounts.data with
    | .error e => .error e
    | .ok (accts, msgs) =>
      .ok { b with
        accounts := { b.accounts with data := accts }
        pushes := b.pushes ++ msgs }

/-- SimulationQueue::push_next_tick (helpers module, not under src).
Modelled from the spec: asks the just-ticked symbol for its next tick and,
when present, enqueues it as a NewTick at the timestamp of that tick. -/
def push_next_tick (b : SimBroker) (symbol_ix : Nat) : SimBroker :=
  match b.symbols.data.get? symbol_ix with
  | none => b
  | some (name, sym) =>
    match sym.next with
    | (some t, sym2) =>
      { b with
          symbols := ⟨b.symbols.data.set symbol_ix (name, sym2)⟩
          pq := pqPush b.pq ⟨t.timestamp, .NewTick symbol_ix t⟩ }
    | (none, sym2) =>
      { b with symbols := ⟨b.symbols.data.set symbol_ix (name, sym2)⟩ }

/-- Inner recursion of the client-inbox drain of SimBroker::init_sim_loop:
each received (action, reply slot) pair is enqueued as an ActionComplete
at the current loop timestamp plus the settings delay for the action. -/
def drain_go (b : SimBroker) : List (BrokerAction × Nat) → SimBroker
  | [] => b
  | (action, slot) :: rest =>
    let execution_delay := b.settings.get_delay action
    drain_go
      { b with pq := pqPush b.pq ⟨b.timestamp + execution_delay, .ActionComplete slot action⟩ }
      rest

/-- Client-inbox drain of SimBroker::init_sim_loop (the try_recv loop). -/
def drain_inbox (b : SimBroker) : SimBroker :=
  drain_go { b with inbox := [] } b.inbox

/-- Dispatch of one popped queue item in SimBroker::init_sim_loop:
NewTick updates the symbol price, schedules the ClientTick after the ping
delay, evaluates positions and refills the queue from the tick source;
ClientTick is delivered to the client sink; ActionComplete executes the
action and schedules the Response after the ping delay; Response fulfills
the reply slot and forwards the result on the push channel. -/
def dispatch (b : SimBroker) (item : QueueItem) : Except String SimBroker :=
  match item.unit with
  | .NewTick symbol_ix tick =>
    match b.symbols.data.get? symbol_ix with
    | none => .error "index out of bounds"
    | some (name, sym) =>
      let sym2 := { sym with price := (tick.bid, tick.ask) }
      let b1 := { b with
        symbols := ⟨b.symbols.data.set symbol_ix (name, sym2)⟩
        pq := pqPush b.pq
          ⟨tick.timestamp + b.settings.ping_ns, .ClientTick symbol_ix tick⟩ }
      match b1.tick_positions symbol_ix with
      | .error e => .error e
      | .ok b2 => .ok (b2.push_next_tick symbol_ix)
  | .ClientTick symbol_ix tick =>
    .ok { b with client_ticks := b.client_ticks ++ [(symbol_ix, tick)] }
  | .ActionComplete slot action =>
    match b.exec_action action item.timestamp b.next_uuid with
    | .error e => .error e
    | .ok (res, b2) =>
      .ok { b2 with
        next_uuid := b2.next_uuid + 1
        pq := pqPush b2.pq
          ⟨item.timestamp + b2.settings.ping_ns, .Response slot res⟩ }
  | .Response slot res =>
    .ok { b with
      responses := b.responses ++ [(slot, res)]
      pushes := b.pushes ++ [res] }

/-- One iteration of the while-let loop of SimBroker::init_sim_loop: pop
the earliest queue item, advance the broker timestamp to it, drain the
client inbox, then dispatch the item.  None when the queue has drained. -/
def step (b : SimBroker) : Except String (Option SimBroker) :=
  match pqPop b.pq with
  | none => .ok none
  | some (item, rest) =>
    let b1 := { b with pq := rest, timestamp := item.timestamp }
    let b2 := b1.drain_inbox
    match b2.dispatch item with
    | .error e => .error e
    | .ok b3 => .ok (some b3)

end SimBroker

/-- Timestamp field carried by the position life-cycle push messages. -/
def BrokerMessage.timestamp? : BrokerMessage → Option Nat
  | .PositionOpened _ _ ts => some ts
  | .PositionClosed _ _ _ ts => some ts
  | .PositionModified _ _ ts => some ts
  | _ => none

/-! Concrete inputs used by the claim theorems, witnesses and
counterexamples. -/

/-- Template position: pending-like, all optional fields unset. -/
def basePos : Position :=
  { creation_time := 0
    symbol_id := 0
    size := 1
    price := none
    long := true
    stop := none
    take_profit := none
    execution_time := none
    execution_price := none
    exit_price := none
    exit_time := none }

/-- Open long position whose take-profit of 100 is hit by ask = 100. -/
def c1_long : Position :=
  { basePos with long := true, take_profit := some 100, execution_price := some 100 }

/-- Open short position whose stop of 100 is hit by ask = 100. -/
def c1_short : Position :=
  { basePos with long := false, stop := some 100, execution_price := some 100 }

/-- Open position used for the close-path evaluations. -/
def c2_pos : Position :=
  { basePos with execution_time := some 1, execution_price := some 100 }

/-- Ledger holding c2_pos open under id 7. -/
def c2_ledger : Ledger :=
  { balance := 0
    pending_positions := []
    open_positions := [(7, c2_pos)]
    closed_positions := [] }

/-- Executable position opened at time 5 for the disjointness run. -/
def c3_pos : Position :=
  { basePos with execution_time := some 5, execution_price := some 100 }

/-- Ledger state after opening c3_pos under id 7 from a fresh ledger. -/
def c3_l1 : Ledger :=
  { balance := 50
    pending_positions := []
    open_positions := [(7, c3_pos)]
    closed_positions := [] }

/-- Ledger state after then closing id 7: the id is in no map at all. -/
def c3_l2 : Ledger :=
  { balance := 60
    pending_positions := []
    open_positions := []
    closed_positions := [] }

/-- Open position of size 5 used for the resize error paths. -/
def c4_pos : Position :=
  { basePos with size := 5, execution_time := some 1, execution_price := some 100 }

/-- Ledger holding c4_pos open under id 3 with balance 50. -/
def c4_ledger : Ledger :=
  { balance := 50
    pending_positions := []
    open_positions := [(3, c4_pos)]
    closed_positions := [] }

/-- State after a failed resize: the position has been dropped. -/
def c4_ledger2 : Ledger :=
  { balance := 50
    pending_positions := []
    open_positions := []
    closed_positions := [] }

/-- Pending long with intended price 100. -/
def c5_pos : Position := { basePos with long := true, price := some 100 }

/-- Settings of the market-open scenario: non-FX, execution delay 10. -/
def c6_settings : SimBrokerSettings :=
  { starting_balance := 100
    ping_ns := 1000
    execution_delay_ns := 10
    fx := false
    fx_base_currency := "USD"
    fx_lot_size := 1000
    delay_of := fun _ => 0 }

/-- Non-FX symbol X with oneshot price (100, 101). -/
def c6_sym : Symbol := Symbol.new_oneshot (100, 101) false 2

/-- Broker with one account (id 42, balance 100) and symbol X. -/
def c6_broker : SimBroker :=
  { accounts := ⟨[(42, { uuid := 42, ledger := Ledger.new 100, live := false })], 1⟩
    settings := c6_settings
    symbols := ⟨[("X", c6_sym)]⟩
    pq := []
    timestamp := 0
    inbox := []
    pushes := []
    responses := []
    client_ticks := []
    next_uuid := 9 }

/-- Position the market order constructs: long fill at the ask. -/
def c6_pos : Position :=
  { creation_time := 0
    symbol_id := 0
    size := 1
    price := some 101
    long := true
    stop := none
    take_profit := none
    execution_time := some 10
    execution_price := some 101
    exit_price := none
    exit_time := none }

/-- Ledger of account 42 after the market open: balance still 100. -/
def c6_ledger2 : Ledger :=
  { balance := 100
    pending_positions := []
    open_positions := [(9, c6_pos)]
    closed_positions := [] }

/-- Broker state after the market open. -/
def c6_broker2 : SimBroker :=
  { c6_broker with
      accounts := ⟨[(42, { uuid := 42, ledger := c6_ledger2, live := false })], 1⟩ }

/-- Position with an execution price but no execution time. -/
def c7_pos : Position := { basePos with execution_price := some 5 }

/-- Fully executable position for the open-position success path. -/
def c7w_pos : Position :=
  { basePos with execution_time := some 5, execution_price := some 7 }

/-- FX symbol EUR (half of the base-rate scenario). -/
def c8_sym_eur : Symbol := Symbol.new_oneshot (10990, 10995) true 4

/-- FX pair EURUSD quoted (10999, 11000) at 4 decimals. -/
def c8_sym_eurusd : Symbol := Symbol.new_oneshot (10999, 11000) true 4

/-- FX-mode broker with symbols EUR (index 0) and EURUSD (index 1). -/
def c8_broker : SimBroker :=
  { accounts := ⟨[], 2⟩
    settings :=
      { starting_balance := 100
        ping_ns := 1000
        execution_delay_ns := 10
        fx := true
        fx_base_currency := "USD"
        fx_lot_size := 1000
        delay_of := fun _ => 0 }
    symbols := ⟨[("EUR", c8_sym_eur), ("EURUSD", c8_sym_eurusd)]⟩
    pq := []
    timestamp := 0
    inbox := []
    pushes := []
    responses := []
    client_ticks := []
    next_uuid := 0 }

/-- Same broker with FX mode switched off. -/
def c8_fxoff_broker : SimBroker :=
  { c8_broker with settings := { c8_broker.settings with fx := false } }

/-- Position of size 2 on the FX symbol EUR (index 0). -/
def c8_pos : Position :=
  { basePos with
      symbol_id := 0
      size := 2
      execution_time := some 1
      execution_price := some 10995 }

/-- Position on the non-FX symbol X of the c6 broker. -/
def c8_nonfx_pos : Position :=
  { basePos with
      symbol_id := 0
      size := 3
      execution_time := some 1
      execution_price := some 101 }

/-- Pending long position on symbol 0 with intended price 100. -/
def c9_pending : Position := { basePos with symbol_id := 0, price := some 100 }

/-- Symbol X whose stream is exhausted after the primed tick. -/
def c9_sym : Symbol :=
  { tick_source := []
    next_tick := some ⟨5000, 99, 100⟩
    price := (0, 0)
    is_fx := false
    decimal_precision := 2 }

/-- Settings of the delay-law run: ping 1000, uniform action delay 25. -/
def c9_settings : SimBrokerSettings :=
  { starting_balance := 100
    ping_ns := 1000
    execution_delay_ns := 10
    fx := false
    fx_base_currency := "USD"
    fx_lot_size := 1000
    delay_of := fun _ => 25 }

/-- Account whose ledger holds the pending position under id 11. -/
def c9_acct : Account :=
  { uuid := 1
    ledger :=
      { balance := 100
        pending_positions := [(11, c9_pending)]
        open_positions := []
        closed_positions := [] }
    live := false }

/-- Broker about to process the tick (5000, 99, 100) for symbol 0. -/
def c9_broker : SimBroker :=
  { accounts := ⟨[(1, c9_acct)], 1⟩
    settings := c9_settings
    symbols := ⟨[("X", c9_sym)]⟩
    pq := [⟨5000, .NewTick 0 ⟨5000, 99, 100⟩⟩]
    timestamp := 0
    inbox := []
    pushes := []
    responses := []
    client_ticks := []
    next_uuid := 0 }

/-- The pending position as filled by that tick at time 5000. -/
def c9_filled : Position :=
  { c9_pending with execution_time := some 5000, execution_price := some 100 }

/-- Broker with a Ping queued in the inbox at loop time 50. -/
def c9w_broker : SimBroker := { c9_broker with timestamp := 50, inbox := [(.Ping, 3)] }

/-- Total extraction of a successful step result (used to name dispatch
results concretely in witnesses). -/
def okOr (d : SimBroker) : Except String SimBroker → SimBroker
  | .ok x => x
  | .error _ => d

/-- Broker state after dispatching an ActionComplete Ping at time 5. -/
def c9w_after_ac : SimBroker :=
  okOr c9w_broker (c9w_broker.dispatch ⟨5, .ActionComplete 3 .Ping⟩)

/-- Broker of the c9 run as it stands right before dispatching its
NewTick: item popped, timestamp advanced to 5000. -/
def c9_run_b : SimBroker := { c9_broker with pq := [], timestamp := 5000 }

/-- Broker state after dispatching the NewTick of the c9 run. -/
def c9w_after_tick : SimBroker :=
  okOr c9_broker (c9_run_b.dispatch ⟨5000, .NewTick 0 ⟨5000, 99, 100⟩⟩)

/-! Supporting lemmas. -/

/-- Membership of the freshly pushed item in the simulation queue. -/
theorem mem_pqPush_self (q : List QueueItem) (x : QueueItem) : x ∈ pqPush q x := by
  induction q with
  | nil => simp [pqPush]
  | cons y ys ih =>
    by_cases h : y.timestamp ≤ x.timestamp <;> simp [pqPush, h, ih]

/-- Queue pushes preserve the membership of existing items. -/
theorem mem_pqPush_of_mem (q : List QueueItem) (x y : QueueItem) (h : y ∈ q) :
    y ∈ pqPush q x := by
  induction q with
  | nil => cases h
  | cons z zs ih =>
    rcases List.mem_cons.mp h with rfl | hm
    · by_cases hz : y.timestamp ≤ x.timestamp <;> simp [pqPush, hz]
    · by_cases hz : z.timestamp ≤ x.timestamp <;> simp [pqPush, hz, ih hm, hm]

/-- Draining the inbox never removes items from the simulation queue. -/
theorem drain_go_pq_mono (inbox : List (BrokerAction × Nat)) (b : SimBroker)
    (y : QueueItem) (h : y ∈ b.pq) : y ∈ (SimBroker.drain_go b inbox).pq := by
  induction inbox generalizing b with
  | nil => simpa [SimBroker.drain_go] using h
  | cons p rest ih =>
    obtain ⟨action, slot⟩ := p
    exact ih _ (mem_pqPush_of_mem _ _ _ h)

/-- Each inbox entry is enqueued by the drain as an ActionComplete at the
broker timestamp plus the settings delay of the action. -/
theorem drain_go_mem (inbox : List (BrokerAction × Nat)) (b : SimBroker)
    (action : BrokerAction) (slot : Nat) (h : (action, slot) ∈ inbox) :
    (⟨b.timestamp + b.settings.get_delay action, .ActionComplete slot action⟩ : QueueItem)
      ∈ (SimBroker.drain_go b inbox).pq := by
  induction inbox generalizing b with
  | nil => cases h
  | cons p rest ih =>
    obtain ⟨a0, s0⟩ := p
    rcases List.mem_cons.mp h with heq | hmem
    · injection heq with h1 h2
      subst h1; subst h2
      exact drain_go_pq_mono rest _ _ (mem_pqPush_self _ _)
    · exact ih _ hmem

/-- market_open never changes the broker settings. -/
theorem market_open_settings {b b2 : SimBroker} {res : BrokerResult}
    {account_id : Nat} {symbol : String} {long : Bool} {size : Nat}
    {stop take_profit max_range : Option Nat} {ts u : Nat}
    (h : b.market_open account_id symbol long size stop take_profit max_range ts u
        = .ok (res, b2)) :
    b2.settings = b.settings := by
  simp only [SimBroker.market_open] at h
  repeat' split at h
  all_goals first
    | exact Except.noConfusion h
    | (injection h with h1; injection h1 with h2 h3; subst h3; rfl)

/-- market_close never changes the broker settings. -/
theorem market_close_settings {b b2 : SimBroker} {res : BrokerResult}
    {account_id position_uuid size : Nat}
    (h : b.market_close account_id position_uuid size = .ok (res, b2)) :
    b2.settings = b.settings := by
  simp only [SimBroker.market_close] at h
  repeat' split at h
  all_goals first
    | exact Except.noConfusion h
    | (injection h with h1; injection h1 with h2 h3; subst h3; rfl)

/-- modify_position never changes the broker settings. -/
theorem modify_position_settings {b b2 : SimBroker} {res : BrokerResult}
    {account_id position_uuid : Nat} {sl tp : Option Nat}
    (h : b.modify_position account_id position_uuid sl tp = (res, b2)) :
    b2.settings = b.settings := by
  simp only [SimBroker.modify_position] at h
  repeat' split at h
  all_goals injection h with h2 h3
  all_goals subst h3
  all_goals rfl

/-- exec_action never changes the broker settings. -/
theorem exec_action_settings {b b2 : SimBroker} {cmd : BrokerAction}
    {ts u : Nat} {res : BrokerResult}
    (h : b.exec_action cmd ts u = .ok (res, b2)) :
    b2.settings = b.settings := by
  cases cmd with
  | Ping =>
    simp only [SimBroker.exec_action] at h
    injection h with h1
    injection h1 with h2 h3
    subst h3; rfl
  | Disconnect =>
    simp only [SimBroker.exec_action] at h
    injection h
  | TradingAction account_uuid action =>
    cases action with
    | MarketOrder symbol long size stop take_profit max_range =>
      simp only [SimBroker.exec_action] at h
      exact market_open_settings h
    | MarketClose uuid size =>
      simp only [SimBroker.exec_action] at h
      exact market_close_settings h
    | LimitOrder a s l sz st tp ep =>
      simp only [SimBroker.exec_action] at h
      injection h
    | LimitClose uuid size ep =>
      simp only [SimBroker.exec_action] at h
      injection h
    | ModifyPosition uuid stop take_profit ep =>
      simp only [SimBroker.exec_action] at h
      injection h with h1
      exact modify_position_settings h1

/-- Every push message produced by the fill phase carries the broker
timestamp at which the tick was processed. -/
theorem apply_fills_msgs (ts : Nat) (fills : List (Nat × Option Nat))
    (acct acct2 : Account) (msgs : List BrokerResult)
    (h : apply_fills ts acct fills = .ok (acct2, msgs)) :
    ∀ m ∈ msgs, ∃ msg, m = Except.ok msg ∧ msg.timestamp? = some ts := by
  induction fills generalizing acct acct2 msgs with
  | nil =>
    simp only [apply_fills] at h
    injection h with h1
    injection h1 with h2 h3
    subst h3
    intro m hm
    cases hm
  | cons f rest ih =>
    obtain ⟨pos_id, price_opt⟩ := f
    simp only [apply_fills] at h
    split at h
    · exact Except.noConfusion h
    · split at h
      · exact Except.noConfusion h
      · rename_i a2 ms hrec
        injection h with h1
        injection h1 with h2 h3
        subst h3
        intro m hm
        rcases List.mem_cons.mp hm with rfl | hm2
        · exact ⟨_, rfl, rfl⟩
        · exact ih _ _ _ hrec m hm2

/-- Every push message produced by the close phase carries the broker
timestamp at which the tick was processed. -/
theorem apply_closes_msgs (ts : Nat)
    (closes : List (Nat × Option (Nat × PositionClosureReason)))
    (acct acct2 : Account) (msgs : List BrokerResult)
    (h : apply_closes ts acct closes = .ok (acct2, msgs)) :
    ∀ m ∈ msgs, ∃ msg, m = Except.ok msg ∧ msg.timestamp? = some ts := by
  induction closes generalizing acct acct2 msgs with
  | nil =>
    simp only [apply_closes] at h
    injection h with h1
    injection h1 with h2 h3
    subst h3
    intro m hm
    cases hm
  | cons c rest ih =>
    obtain ⟨pos_id, closure⟩ := c
    simp only [apply_closes] at h
    split at h
    · exact Except.noConfusion h
    · split at h
      · exact Except.noConfusion h
      · split at h
        · exact Except.noConfusion h
        · rename_i a2 ms hrec
          injection h with h1
          injection h1 with h2 h3
          subst h3
          intro m hm
          rcases List.mem_cons.mp hm with rfl | hm2
          · exact ⟨_, rfl, rfl⟩
          · exact ih _ _ _ hrec m hm2

/-- Every push message produced by the per-account tick evaluation
carries the broker timestamp at which the tick was processed. -/
theorem tick_accounts_msgs (ts bid ask six : Nat)
    (accts accts2 : List (Nat × Account)) (msgs : List BrokerResult)
    (h : tick_accounts ts bid ask six accts = .ok (accts2, msgs)) :
    ∀ m ∈ msgs, ∃ msg, m = Except.ok msg ∧ msg.timestamp? = some ts := by
  induction accts generalizing accts2 msgs with
  | nil =>
    simp only [tick_accounts] at h
    injection h with h1
    injection h1 with h2 h3
    subst h3
    intro m hm
    cases hm
  | cons p rest ih =>
    obtain ⟨acct_id, acct⟩ := p
    simp only [tick_accounts] at h
    split at h
    · exact Except.noConfusion h
    · split at h
      · exact Except.noConfusion h
      · rename_i a2 msgs1 hfills
        split at h
        · exact Except.noConfusion h
        · split at h
          · exact Except.noConfusion h
          · rename_i a3 msgs2 hcloses
            split at h
            · exact Except.noConfusion h
            · rename_i rest2 msgs3 hrest
              injection h with h1
              injection h1 with h2 h3
              subst h3
              intro m hm
              rcases List.mem_append.mp hm with hm12 | hm3
              · rcases List.mem_append.mp hm12 with hm1 | hm2
                · exact apply_fills_msgs _ _ _ _ _ hfills m hm1
                · exact apply_closes_msgs _ _ _ _ _ hcloses m hm2
              · exact ih _ _ hrest m hm3

/-- Every push message appended by tick_positions carries the broker
timestamp; all other pushes were already in the push log. -/
theorem tick_positions_pushes (b b2 : SimBroker) (six : Nat)
    (h : b.tick_positions six = .ok b2) :
    ∀ m ∈ b2.pushes, m ∈ b.pushes ∨
      ∃ msg, m = Except.ok msg ∧ msg.timestamp? = some b.timestamp := by
  simp only [SimBroker.tick_positions] at h
  split at h
  · exact Except.noConfusion h
  · split at h
    · exact Except.noConfusion h
    · rename_i accts msgs hta
      injection h with h1
      subst h1
      intro m hm
      rcases List.mem_append.mp hm with hmb | hmm
      · exact Or.inl hmb
      · exact Or.inr (tick_accounts_msgs _ _ _ _ _ _ _ hta m hmm)

/-- Refilling the queue from the tick source does not touch the push
log. -/
theorem push_next_tick_pushes (b : SimBroker) (six : Nat) :
    (b.push_next_tick six).pushes = b.pushes := by
  simp only [SimBroker.push_next_tick]
  split
  · rfl
  · split <;> rfl

/-- Lookup of a freshly appended symbol name that was not previously
registered finds the appended symbol. -/
theorem Symbols.get_append_fresh (l : List (String × Symbol)) (name : String)
    (sym : Symbol) (h : l.any (fun p => p.1 == name) = false) :
    Symbols.get? ⟨l ++ [(name, sym)]⟩ name = some sym := by
  unfold Symbols.get?
  induction l with
  | nil => simp [List.find?]
  | cons x xs ih =>
    simp only [List.any_cons, Bool.or_eq_false_iff] at h
    obtain ⟨hx, hxs⟩ := h
    simpa [List.find?, hx] using ih hxs

/-! Claim theorems. -/

/-- Claim C1. The trigger conditions and trigger prices of
is_close_satisfied match the claim, but the closure reasons do not: the
take-profit branch of a long position reports StopLoss, and the stop
branch of a short position reports TakeProfit.  On a long with
take_profit = 100 and tick (99, 100) the source returns (100, StopLoss)
where the claim requires TakeProfit; on a short with stop = 100 and the
same tick it returns (100, TakeProfit) where the claim requires
StopLoss. -/
theorem C1_closure_reasons_swapped :
    c1_long.is_close_satisfied 99 100 =
      .ok (some (100, PositionClosureReason.StopLoss)) ∧
    c1_short.is_close_satisfied 99 100 =
      .ok (some (100, PositionClosureReason.TakeProfit)) :=
  ⟨rfl, rfl⟩

/-- Claim C2. Evaluating close_position on a ledger holding position
c2_pos open under id 7: the position is removed from the open map, the
balance is credited by the position value, and PositionClosed is returned
with the position, id, reason and timestamp — but the closed map stays
empty, against the claimed insertion into the closed map. -/
theorem C2_close_position_never_inserts_into_closed :
    c2_ledger.close_position 7 100 50 .MarketClose =
      (.ok (.PositionClosed 7 c2_pos .MarketClose 50),
       { balance := 100
         pending_positions := []
         open_positions := []
         closed_positions := [] }) :=
  rfl

/-- Claim C3. A two-step sequence from a fresh ledger — open_position of
id 7 followed by close_position of id 7 — ends with id 7 in none of the
pending, open and closed maps, refuting the exactly-one-map invariant. -/
theorem C3_close_breaks_map_disjointness :
    (Ledger.new 50).open_position 7 c3_pos =
      .ok (.ok (.PositionOpened 7 c3_pos 5), c3_l1) ∧
    c3_l1.close_position 7 10 99 .MarketClose =
      (.ok (.PositionClosed 7 c3_pos .MarketClose 99), c3_l2) ∧
    c3_l2.pending_positions.lookup 7 = none ∧
    c3_l2.open_positions.lookup 7 = none ∧
    c3_l2.closed_positions.lookup 7 = none :=
  ⟨rfl, rfl, rfl, rfl, rfl⟩

/-- Claim C4. resize_position removes the position before validating:
both the InvalidModificationAmount return (resize of -6 against size 5)
and the InsufficientBuyingPower return (cost 100 against balance 50)
leave a ledger from which the position has vanished, so the ledger is
mutated on an Err return. -/
theorem C4_resize_error_paths_lose_position :
    c4_ledger.resize_position 3 (-6) 10 20 =
      .ok (.error .InvalidModificationAmount, c4_ledger2) ∧
    c4_ledger.resize_position 3 1 100 20 =
      .ok (.error .InsufficientBuyingPower, c4_ledger2) ∧
    c4_ledger2.open_positions.lookup 3 = none ∧
    c4_ledger ≠ c4_ledger2 :=
  ⟨rfl, rfl, rfl, by decide⟩

/-- Claim C5. A pending long with intended price 100 is filled by the
tick (bid 100, ask 101): the second branch of the source checks bid ≥ price
without a short-side guard, so the long fills at the bid even though
ask > intended_price, against the claimed never-filled guarantee. -/
theorem C5_long_fills_when_ask_above_intended :
    c5_pos.is_open_satisfied 100 101 = .ok (some 100) ∧
    c5_pos.long = true ∧ c5_pos.price = some 100 ∧ 100 < 101 :=
  ⟨rfl, rfl, rfl, by decide⟩

/-- Claim C6. Market order on registered non-FX symbol X at now = 0 with
execution delay 10: the position carries creation_time 0, execution_time
10 and execution_price 101 (the ask) and the reply is PositionOpened with
those fields, but the account balance stays 100 — the computed open cost
is discarded because Ledger::open_position has no cost parameter, against
the claimed balance decrease by the position value. -/
theorem C6_market_open_ignores_open_cost :
    c6_broker.market_open 42 "X" true 1 none none none 0 9 =
      .ok (.ok (.PositionOpened 9 c6_pos 10), c6_broker2) ∧
    (c6_broker2.accounts.get? 42).map (fun a => a.ledger.balance) = some 100 :=
  ⟨rfl, rfl⟩

/-- Claim C7 counterexample. On a position whose execution_time is None
(and execution_price is Some), open_position panics on the unwrap of
execution_time instead of returning an error value, refuting "in no case
does the call abort instead of returning an error". -/
theorem C7_counterexample_unwrap_panic :
    (Ledger.new 10).open_position 1 c7_pos =
      .error "called Option::unwrap on a None value" :=
  rfl

/-- Claim C7 as amended. open_position panics (aborts) when
execution_time is None; it returns the missing-entry-price error and
leaves the ledger unchanged when execution_time is Some but
execution_price is None; and otherwise it inserts the position into the
open map and returns PositionOpened with timestamp equal to the
execution time. -/
theorem C7_open_position_amended (l : Ledger) (uuid : Nat) (pos : Position) :
    (pos.execution_time = none →
      l.open_position uuid pos = .error "called Option::unwrap on a None value") ∧
    (∀ t, pos.execution_time = some t → pos.execution_price = none →
      l.open_position uuid pos =
        .ok (.error (.Message "The supplied position does not have an entry price."), l)) ∧
    (∀ t, pos.execution_time = some t → pos.execution_price ≠ none →
      l.open_position uuid pos =
        .ok (.ok (.PositionOpened uuid pos t),
             { l with open_positions := l.open_positions.insert uuid pos })) := by
  refine ⟨fun h => ?_, fun t ht hp => ?_, fun t ht hp => ?_⟩ <;>
    simp [Ledger.open_position, *]

/-- Claim C7 witness. The amended theorem applied to the concrete
position with execution_time 5 and execution_price 7 on a fresh ledger:
the position is inserted and the reply timestamp is 5. -/
theorem C7_open_position_amended_witness :
    (Ledger.new 3).open_position 1 c7w_pos =
      .ok (.ok (.PositionOpened 1 c7w_pos 5),
           { Ledger.new 3 with
              open_positions := (Ledger.new 3).open_positions.insert 1 c7w_pos }) :=
  (C7_open_position_amended (Ledger.new 3) 1 c7w_pos).2.2 5 rfl (by decide)

/-- Claim C8. get_base_rate errors outside FX mode; in FX mode it uses
the ask of the pair symbol ++ base_currency when registered, else of
base_currency ++ symbol when registered, else NoDataAvailable, with the
chosen ask normalized from its decimal precision to 10 decimals through
convert_decimals; and get_position_value is size * base_rate * lot size
on an FX symbol and the raw size on a non-FX symbol. -/
theorem C8_fx_conversion (b : SimBroker) (s : String) (pos : Position) :
    (b.settings.fx = false →
      b.get_base_rate s =
        .error (.Message "Can only convert to base rate when in FX mode.")) ∧
    (∀ bid ask d, b.settings.fx = true →
      b.symbols.get_price? (s ++ b.settings.fx_base_currency) = some (bid, ask, d) →
      b.get_base_rate s = .ok (SimBroker.convert_decimals ask d 10)) ∧
    (∀ bid ask d, b.settings.fx = true →
      b.symbols.get_price? (s ++ b.settings.fx_base_currency) = none →
      b.symbols.get_price? (b.settings.fx_base_currency ++ s) = some (bid, ask, d) →
      b.get_base_rate s = .ok (SimBroker.convert_decimals ask d 10)) ∧
    (b.settings.fx = true →
      b.symbols.get_price? (s ++ b.settings.fx_base_currency) = none →
      b.symbols.get_price? (b.settings.fx_base_currency ++ s) = none →
      b.get_base_rate s = .error .NoDataAvailable) ∧
    (∀ name sym, b.symbols.data.get? pos.symbol_id = some (name, sym) →
      sym.is_fx = true → ∀ r, b.get_base_rate name = .ok r →
      b.get_position_value pos = .ok (pos.size * r * b.settings.fx_lot_size)) ∧
    (∀ name sym, b.symbols.data.get? pos.symbol_id = some (name, sym) →
      sym.is_fx = false → b.get_position_value pos = .ok pos.size) := by
  refine ⟨fun h => ?_, fun bid ask d hfx h1 => ?_, fun bid ask d hfx h1 h2 => ?_,
    fun hfx h1 h2 => ?_, fun name sym hget hfx r hrate => ?_, fun name sym hget hfx => ?_⟩
  · simp [SimBroker.get_base_rate, h]
  · simp [SimBroker.get_base_rate, hfx, h1]
  · simp [SimBroker.get_base_rate, hfx, h1, h2]
  · simp [SimBroker.get_base_rate, hfx, h1, h2]
  · simp only [List.get?_eq_getElem?] at hget
    simp [SimBroker.get_position_value, hget, hfx, hrate, Bind.bind, Except.bind,
      Pure.pure, Except.pure]
  · simp only [List.get?_eq_getElem?] at hget
    simp [SimBroker.get_position_value, hget, hfx]

/-- Claim C8 witness. Applications of the FX-conversion theorem on the
concrete FX broker (base USD, pair EURUSD quoted ask 11000 at 4
decimals), on the same broker with FX off, and on the non-FX broker of
the market-open scenario. -/
theorem C8_fx_conversion_witness :
    c8_broker.get_base_rate "EUR" = .ok (SimBroker.convert_decimals 11000 4 10) ∧
    c8_broker.get_position_value c8_pos =
      .ok (c8_pos.size * SimBroker.convert_decimals 11000 4 10 *
        c8_broker.settings.fx_lot_size) ∧
    c8_fxoff_broker.get_base_rate "EUR" =
      .error (.Message "Can only convert to base rate when in FX mode.") ∧
    c6_broker.get_position_value c8_nonfx_pos = .ok c8_nonfx_pos.size :=
  ⟨(C8_fx_conversion c8_broker "EUR" c8_pos).2.1 10999 11000 4 rfl rfl,
   (C8_fx_conversion c8_broker "EUR" c8_pos).2.2.2.2.1 "EUR" c8_sym_eur rfl rfl
     (SimBroker.convert_decimals 11000 4 10) rfl,
   (C8_fx_conversion c8_fxoff_broker "EUR" c8_pos).1 rfl,
   (C8_fx_conversion c6_broker "X" c8_nonfx_pos).2.2.2.2.2 "X" c6_sym rfl rfl⟩

/-- Claim C9 counterexample. One loop step of the concrete run: the tick
(5000, 99, 100) fills the pending long at broker time 5000, and the push
notification carries timestamp 5000 — not 5000 + ping_ns (= 6000), as the
claim requires.  The push is sent during tick processing itself, with no
ping delay added. -/
theorem C9_counterexample_fill_push_time :
    (c9_broker.step).map (fun ob => ob.map SimBroker.pushes) =
      .ok (some [Except.ok (BrokerMessage.PositionOpened 11 c9_filled 5000)]) ∧
    5000 + c9_broker.settings.ping_ns ≠ 5000 :=
  ⟨rfl, by decide⟩

/-- Claim C9 as amended. An action drained from the inbox at loop time T0
is enqueued as ActionComplete at T0 + delay(action); dispatching an
ActionComplete at time t enqueues its Response at t + ping_ns; but a push
message emitted by the tick-driven position evaluation of a tick
processed at broker time t carries timestamp t itself — the fill push is
sent immediately, without the ping_ns delay the claim states. -/
theorem C9_delay_law_amended (b : SimBroker) :
    (∀ action slot, (action, slot) ∈ b.inbox →
      (⟨b.timestamp + b.settings.get_delay action,
        .ActionComplete slot action⟩ : QueueItem) ∈ b.drain_inbox.pq) ∧
    (∀ t slot action b2, b.dispatch ⟨t, .ActionComplete slot action⟩ = .ok b2 →
      ∃ res, (⟨t + b.settings.ping_ns, .Response slot res⟩ : QueueItem) ∈ b2.pq) ∧
    (∀ t symbol_ix tick b2, b.timestamp = t →
      b.dispatch ⟨t, .NewTick symbol_ix tick⟩ = .ok b2 →
      ∀ m ∈ b2.pushes, m ∈ b.pushes ∨
        ∃ msg, m = Except.ok msg ∧ BrokerMessage.timestamp? msg = some t) := by
  refine ⟨?_, ?_, ?_⟩
  · intro action slot h
    exact drain_go_mem b.inbox { b with inbox := [] } action slot h
  · intro t slot action b2 h
    simp only [SimBroker.dispatch] at h
    split at h
    · exact Except.noConfusion h
    · rename_i res bex hexec
      injection h with h1
      subst h1
      refine ⟨res, ?_⟩
      have hs := exec_action_settings hexec
      rw [← hs]
      exact mem_pqPush_self _ _
  · intro t symbol_ix tick b2 hts h m hm
    subst hts
    simp only [SimBroker.dispatch] at h
    split at h
    · exact Except.noConfusion h
    · split at h
      · exact Except.noConfusion h
      · rename_i bb htp
        injection h with h1
        subst h1
        rw [push_next_tick_pushes] at hm
        exact tick_positions_pushes _ _ _ htp m hm

/-- Claim C9 witness. The amended delay law applied to concrete runs: the
Ping queued at loop time 50 with delay 25 appears as ActionComplete at
75; dispatching an ActionComplete Ping at time 5 with ping 1000 enqueues
its Response at 1005; and the fill push of the c9 tick run carries the
broker time of the tick 5000. -/
theorem C9_delay_law_amended_witness :
    ((⟨50 + 25, .ActionComplete 3 .Ping⟩ : QueueItem) ∈ c9w_broker.drain_inbox.pq) ∧
    (∃ res, (⟨5 + 1000, .Response 3 res⟩ : QueueItem) ∈ c9w_after_ac.pq) ∧
    ((Except.ok (BrokerMessage.PositionOpened 11 c9_filled 5000) : BrokerResult)
        ∈ c9_run_b.pushes ∨
      ∃ msg, (Except.ok (BrokerMessage.PositionOpened 11 c9_filled 5000) : BrokerResult)
          = Except.ok msg ∧
        BrokerMessage.timestamp? msg = some 5000) :=
  ⟨(C9_delay_law_amended c9w_broker).1 .Ping 3 (List.mem_singleton.mpr rfl),
   (C9_delay_law_amended c9w_broker).2.1 5 3 .Ping c9w_after_ac rfl,
   (C9_delay_law_amended c9_run_b).2.2 5000 0 ⟨5000, 99, 100⟩ c9w_after_tick rfl rfl
     (Except.ok (BrokerMessage.PositionOpened 11 c9_filled 5000))
     (List.mem_singleton.mpr rfl)⟩

/-- Claim C10. register_tickstream panics on unwrapping the stream
first element when the raw tickstream is empty, instead of returning an
error result; on a stream with at least one tick and a fresh name it
succeeds and next_tick of the stored symbol is primed with exactly the
first tick of the stream. -/
theorem C10_register_tickstream (b : SimBroker) (name : String) (is_fx : Bool)
    (d : Nat) :
    (b.register_tickstream name [] is_fx d =
      .error "called Option::unwrap on a None value") ∧
    (∀ t rest, b.symbols.contains name = false →
      (b.register_tickstream name (t :: rest) is_fx d).map
          (fun p => (p.1, p.2.symbols.get? name)) =
        .ok (.ok .Success,
          some { tick_source := rest
                 next_tick := some t
                 price := (0, 0)
                 is_fx := is_fx
                 decimal_precision := d })) := by
  refine ⟨rfl, fun t rest hc => ?_⟩
  have hc2 : b.symbols.data.any (fun p => p.1 == name) = false := hc
  simp only [SimBroker.register_tickstream, Symbol.new_from_stream, Symbol.next,
    Symbols.add, hc, Bool.false_eq_true, if_false, Except.map]
  rw [Symbols.get_append_fresh _ _ _ hc2]

/-- Claim C10 witness. Registering symbol Y with the one-tick stream
[(5, 10, 11)] on the market-open broker: the add succeeds and next_tick
is primed with that tick. -/
theorem C10_register_tickstream_witness :
    (c6_broker.register_tickstream "Y" [⟨5, 10, 11⟩] false 2).map
        (fun p => (p.1, p.2.symbols.get? "Y")) =
      .ok (.ok .Success,
        some { tick_source := []
               next_tick := some ⟨5, 10, 11⟩
               price := (0, 0)
               is_fx := false
               decimal_precision := 2 }) :=
  (C10_register_tickstream c6_broker "Y" false 2).2 ⟨5, 10, 11⟩ [] rfl

end TickGrinder
